import Mathlib

/-!
Verification development for the go-customerio client library.

The Go source is shallowly embedded: pure helpers become Lean functions,
the single HTTP round trip performed by each endpoint method is made
explicit by passing a `Net` oracle (the outcome of the round trip) and by
returning the list of `Call`s that were issued, and fallible operations
return `Except`/`Option`.  Request and response bodies are modelled as
JSON values (`Json`), i.e. at the level of the abstract syntax that Go's
`encoding/json` marshals and unmarshals; JSON numbers are modelled at
integer precision, which covers every value the claims touch.
-/

/-- JSON values, the shape produced by Go's `encoding/json` when decoding
into `interface\x7b\x7d` (null, bool, number, string, array, object). -/
inductive Json where
  | null : Json
  | bool (b : Bool) : Json
  | num (n : Int) : Json
  | str (s : String) : Json
  | arr (elems : List Json) : Json
  | obj (fields : List (String × Json)) : Json

/-- Go map / decoded JSON object lookup: the last binding for a key wins
(later inserts into a Go map overwrite earlier ones, and duplicate keys in
a decoded JSON object are processed in order). -/
def objGet (fs : List (String × Json)) (k : String) : Option Json :=
  (fs.reverse.find? (fun kv => kv.1 == k)).map (fun kv => kv.2)

/-- One HTTP request as issued by the client: method, URL and optional
JSON body. -/
structure Call where
  method : String
  url : String
  body : Option Json

/-- Outcome of one HTTP round trip: a transport-level failure, or a status
code together with the raw response body. -/
inductive DoOutcome where
  | fail (msg : String) : DoOutcome
  | resp (status : Nat) (body : Json) : DoOutcome

/-- The network, abstracted: what outcome each request would produce. -/
def Net : Type := Call → DoOutcome

/-- The error values surfaced by the client (Go `error` values):
`transport` wraps a failed round trip, `param` is `ParamError`,
`api` is `CustomerIOError\x7bstatus, url, body\x7d`, `notFound` is the
sentinel `ErrCustomerNotFound`, `jsonError` wraps a `json.Unmarshal`
failure and `simple` is `errors.New`. -/
inductive GoErr where
  | transport (msg : String) : GoErr
  | param (name : String) : GoErr
  | api (status : Nat) (url : String) (body : Json) : GoErr
  | notFound : GoErr
  | jsonError (msg : String) : GoErr
  | simple (msg : String) : GoErr

/-- Track-client configuration (the `CustomerIO` struct); only the base
URL participates in the modelled behaviour, credentials feed the
`Authorization` header which is modelled separately by `auth`. -/
structure ClientConfig where
  URL : String

/-- `CustomerIO.request`: perform one round trip; any status other than
`200 OK` becomes a `CustomerIOError` carrying the status, the request URL
and the raw body. -/
def goRequest (method url : String) (body : Option Json) (net : Net) :
    Except GoErr Json × List Call :=
  match net ⟨method, url, body⟩ with
  | DoOutcome.fail m => (Except.error (GoErr.transport m), [⟨method, url, body⟩])
  | DoOutcome.resp status b =>
    if status = 200 then (Except.ok b, [⟨method, url, body⟩])
    else (Except.error (GoErr.api status url b), [⟨method, url, body⟩])

/-- Modelled from the spec: `APIClient.doRequest` is declared outside the
provided sources (only its callers appear).  Per the spec's Request
Executor (section 4.2) it performs exactly one HTTP round trip and hands
the raw response body and status code back to the endpoint method, which
does the status classification itself; a transport failure is surfaced
as an error. -/
def doRequest (method url : String) (body : Option Json) (net : Net) :
    Except String (Nat × Json) × List Call :=
  match net ⟨method, url, body⟩ with
  | DoOutcome.fail m => (Except.error m, [⟨method, url, body⟩])
  | DoOutcome.resp status b => (Except.ok (status, b), [⟨method, url, body⟩])

/-- UTF-8 encoding of a character, as Go strings are byte strings. -/
def utf8Bytes (c : Char) : List Nat :=
  let n := c.toNat
  if n < 128 then [n]
  else if n < 2048 then [192 + n / 64, 128 + n % 64]
  else if n < 65536 then [224 + n / 4096, 128 + n / 64 % 64, 128 + n % 64]
  else [240 + n / 262144, 128 + n / 4096 % 64, 128 + n / 64 % 64, 128 + n % 64]

/-- Uppercase hexadecimal digit, as used by Go's `net/url` escaping. -/
def hexDigitUpper (n : Nat) : Char :=
  if n < 10 then Char.ofNat (48 + n) else Char.ofNat (55 + n)

/-- Percent-escape of a single byte, e.g. `%2F`. -/
def percentByte (n : Nat) : List Char :=
  ['%', hexDigitUpper (n / 16), hexDigitUpper (n % 16)]

/-- RFC 3986 unreserved characters, never escaped by Go's `net/url`. -/
def goUnreserved (c : Char) : Bool :=
  ('a' ≤ c && c ≤ 'z') || ('A' ≤ c && c ≤ 'Z') || ('0' ≤ c && c ≤ '9') ||
    c = '-' || c = '_' || c = '.' || c = '~'

/-- `url.PathEscape`: keeps unreserved characters and the sub-delimiters
`$ & + : = @`; everything else (including `/ ; , ?` and space) is
percent-escaped byte-wise. -/
def goPathEscape (s : String) : String :=
  String.mk (s.data.foldr
    (fun c acc =>
      if goUnreserved c || c = '$' || c = '&' || c = '+' || c = ':' || c = '=' || c = '@'
      then c :: acc
      else (utf8Bytes c).foldr (fun b acc2 => percentByte b ++ acc2) acc)
    [])

/-- `url.QueryEscape` (used by `url.Values.Encode`): keeps only unreserved
characters, turns a space into `+` and percent-escapes everything else
byte-wise. -/
def goQueryEscape (s : String) : String :=
  String.mk (s.data.foldr
    (fun c acc =>
      if goUnreserved c then c :: acc
      else if c = ' ' then '+' :: acc
      else (utf8Bytes c).foldr (fun b acc2 => percentByte b ++ acc2) acc)
    [])

/-- `strings.ToLower`, on the ASCII fragment the claims exercise. -/
def goToLower (s : String) : String :=
  String.mk (s.data.map Char.toLower)

/-- `strings.TrimSpace`: trim whitespace from both ends. -/
def goTrimSpace (s : String) : String :=
  s.trim

/-- Digit run of `strconv.Atoi`. -/
def digitsToNat : List Char → Option Nat
  | [] => none
  | ds =>
    if ds.all (fun c => '0' ≤ c && c ≤ '9')
    then some (ds.foldl (fun acc c => acc * 10 + (c.toNat - 48)) 0)
    else none

/-- `strconv.Atoi`: optional sign followed by decimal digits (modelled at
unbounded precision; the epoch values the claims use are far from the
64-bit boundary). -/
def goAtoi (s : String) : Option Int :=
  match s.data with
  | '+' :: ds => (digitsToNat ds).map (fun n => (n : Int))
  | '-' :: ds => (digitsToNat ds).map (fun n => -(n : Int))
  | ds => (digitsToNat ds).map (fun n => (n : Int))

/-- Order two rendered key/value pairs by key, as `fmt` prints Go maps
with sorted keys. -/
def sortPairsInsert (kv : String × String) : List (String × String) → List (String × String)
  | [] => [kv]
  | x :: xs => if kv.1 ≤ x.1 then kv :: x :: xs else x :: sortPairsInsert kv xs

/-- Insertion sort of rendered key/value pairs by key. -/
def sortPairs : List (String × String) → List (String × String)
  | [] => []
  | x :: xs => sortPairsInsert x (sortPairs xs)

mutual
/-- `fmt.Sprint` of a JSON-decoded `interface\x7b\x7d` value: `nil`
prints `<nil>`, numbers print their decimal value, strings print
themselves, slices print space-separated in brackets and maps print
`map[k:v ...]` with keys sorted. -/
def fmtSprintJson : Json → String
  | Json.null => "<nil>"
  | Json.bool b => if b then "true" else "false"
  | Json.num n => toString n
  | Json.str s => s
  | Json.arr xs => "[" ++ String.intercalate " " (fmtSprintList xs) ++ "]"
  | Json.obj fs =>
    "map[" ++
      String.intercalate " "
        ((sortPairs (fmtSprintPairs fs)).map (fun kv => kv.1 ++ ":" ++ kv.2)) ++ "]"

/-- Render each element of a JSON array. -/
def fmtSprintList : List Json → List String
  | [] => []
  | x :: xs => fmtSprintJson x :: fmtSprintList xs

/-- Render each field of a JSON object, keeping the key. -/
def fmtSprintPairs : List (String × Json) → List (String × String)
  | [] => []
  | (k, v) :: xs => (k, fmtSprintJson v) :: fmtSprintPairs xs
end

/-- `fmt.Sprint` of a possibly-missing map entry: a missing key yields the
nil interface, printed `<nil>`. -/
def fmtOpt : Option Json → String
  | none => "<nil>"
  | some j => fmtSprintJson j

/-- Standard base64 alphabet (`base64.StdEncoding`): `A-Z a-z 0-9 + /`. -/
def b64charStd (n : Nat) : Char :=
  if n < 26 then Char.ofNat (65 + n)
  else if n < 52 then Char.ofNat (71 + n)
  else if n < 62 then Char.ofNat (n - 4)
  else if n = 62 then '+' else '/'

/-- URL-safe base64 alphabet (`base64.URLEncoding`): `A-Z a-z 0-9 - _`. -/
def b64charUrl (n : Nat) : Char :=
  if n = 62 then '-' else if n = 63 then '_' else b64charStd n

/-- Inverse of the standard base64 alphabet; characters outside the
alphabet are rejected, as `base64.StdEncoding.DecodeString` does. -/
def b64decStd (c : Char) : Option Nat :=
  let n := c.toNat
  if 65 ≤ n && n ≤ 90 then some (n - 65)
  else if 97 ≤ n && n ≤ 122 then some (n - 71)
  else if 48 ≤ n && n ≤ 57 then some (n + 4)
  else if n = 43 then some 62
  else if n = 47 then some 63
  else none

/-- Inverse of the URL-safe base64 alphabet. -/
def b64decUrl (c : Char) : Option Nat :=
  if c = '-' then some 62
  else if c = '_' then some 63
  else if c = '+' || c = '/' then none
  else b64decStd c

/-- Base64 encoding with `=` padding over a given alphabet, three input
bytes to four output characters, exactly as `encoding/base64` encodes. -/
def b64encode (alph : Nat → Char) : List Nat → List Char
  | [] => []
  | [a] => [alph (a / 4), alph (a % 4 * 16), '=', '=']
  | [a, b] => [alph (a / 4), alph (a % 4 * 16 + b / 16), alph (b % 16 * 4), '=']
  | a :: b :: c :: rest =>
    alph (a / 4) :: alph (a % 4 * 16 + b / 16) :: alph (b % 16 * 4 + c / 64) ::
      alph (c % 64) :: b64encode alph rest

/-- Base64 decoding with mandatory `=` padding over a given alphabet
inverse; malformed input yields `none` (Go reports a
`CorruptInputError`).  Like Go, non-zero trailing bits are not
rejected. -/
def b64decode (dec : Char → Option Nat) : List Char → Option (List Nat)
  | [] => some []
  | c1 :: c2 :: c3 :: c4 :: rest =>
    match dec c1, dec c2 with
    | some a, some b =>
      if c3 = '=' then
        if c4 = '=' && rest.isEmpty then some [a * 4 + b / 16] else none
      else
        match dec c3 with
        | some c =>
          if c4 = '=' then
            if rest.isEmpty then some [a * 4 + b / 16, b % 16 * 16 + c / 4] else none
          else
            match dec c4 with
            | some d =>
              match b64decode dec rest with
              | some tail =>
                some ((a * 4 + b / 16) :: (b % 16 * 16 + c / 4) :: (c % 4 * 64 + d) :: tail)
              | none => none
            | none => none
        | none => none
    | _, _ => none
  | _ => none

/-- `CustomerIO.auth`: the `Basic` token is
`base64.URLEncoding.EncodeToString([]byte(fmt.Sprintf("%v:%v", siteID, apiKey)))`,
i.e. the URL-safe base64 encoding of the bytes of `<siteID>:<apiKey>`
(58 is the byte of the colon).  Credentials are byte strings. -/
def auth (siteID apiKey : List Nat) : List Char :=
  b64encode b64charUrl (siteID ++ [58] ++ apiKey)

/-- Escape-sequence processor for the interior of a Go double-quoted
string, the fragment of `strconv.Unquote` the legacy decoder meets:
simple escapes plus `\xHH` and `\uHHHH` (ASCII range); a bare quote,
backslash run-off, an unknown escape or a raw newline is an error. -/
def unquoteChars : List Char → Option (List Char)
  | [] => some []
  | '\\' :: e :: rest =>
    match e with
    | 'a' => (unquoteChars rest).map (fun l => Char.ofNat 7 :: l)
    | 'b' => (unquoteChars rest).map (fun l => Char.ofNat 8 :: l)
    | 'f' => (unquoteChars rest).map (fun l => Char.ofNat 12 :: l)
    | 'n' => (unquoteChars rest).map (fun l => '\n' :: l)
    | 'r' => (unquoteChars rest).map (fun l => '\r' :: l)
    | 't' => (unquoteChars rest).map (fun l => '\t' :: l)
    | 'v' => (unquoteChars rest).map (fun l => Char.ofNat 11 :: l)
    | '\\' => (unquoteChars rest).map (fun l => '\\' :: l)
    | '"' => (unquoteChars rest).map (fun l => '"' :: l)
    | _ => none
  | '\\' :: [] => none
  | c :: rest =>
    if c = '"' || c = '\n' then none
    else (unquoteChars rest).map (fun l => c :: l)

/-- `strconv.Unquote`, returned as `(value, errored)`: like Go, every
error path returns the empty string together with the error (`errored =
true`), which is the contract the legacy attribute decoder's condition
turns on.  Double-quoted strings are processed by `unquoteChars`;
backquoted strings are returned verbatim; anything else (including the
empty string and single-rune literals, which never arise here) is an
error. -/
def goUnquote (s : String) : String × Bool :=
  match s.data with
  | '"' :: rest =>
    if rest ≠ [] ∧ rest.getLast! = '"' then
      match unquoteChars rest.dropLast with
      | some out => (String.mk out, false)
      | none => ("", true)
    else ("", true)
  | '`' :: rest =>
    if rest ≠ [] ∧ rest.getLast! = '`' && !rest.dropLast.any (fun c => c = '`' || c = '\r')
    then (String.mk rest.dropLast, false)
    else ("", true)
  | _ => ("", true)

/-- Unix-seconds value of Go's zero `time.Time` (January 1, year 1 UTC);
`time.Time.IsZero` is modelled as equality with this sentinel, since the
code only observes times through `IsZero` and `Unix()`. -/
def goZeroTimeUnix : Int := -62135596800

/-- The `Customer` entity.  `Attributes` is the open string-keyed map,
`CreatedAt` models the `*time.Time` pointer as an optional unix-seconds
value.  `Unsubscribed` (`*bool`) appears in the revision of the struct
used by `AddOrUpdate` (the spec's subscription flag); the revision that
defines `MarshalJSON` has only the other five fields. -/
structure Customer where
  Attributes : List (String × Json)
  CioID : String
  CreatedAt : Option Int
  Email : String
  ID : String
  Unsubscribed : Option Bool

/-- `Customer.MarshalJSON`: renders `created_at` as integer epoch seconds
through a shadowing field with `omitempty` (so the zero value is dropped
from the output, as are all other zero-valued fields of the alias); the
alias's own `created_at` field is suppressed by Go's depth rule for
conflicting JSON names. -/
def marshalCustomer (c : Customer) : List (String × Json) :=
  let t : Int :=
    match c.CreatedAt with
    | some ct => if ct = goZeroTimeUnix then 0 else ct
    | none => 0
  (if t ≠ 0 then [("created_at", Json.num t)] else []) ++
    (if c.Attributes.isEmpty then [] else [("attributes", Json.obj c.Attributes)]) ++
    (if c.CioID ≠ "" then [("cio_id", Json.str c.CioID)] else []) ++
    (if c.Email ≠ "" then [("email", Json.str c.Email)] else []) ++
    (if c.ID ≠ "" then [("id", Json.str c.ID)] else [])

/-- `json.Unmarshal` of an object field into a Go `string`: a missing key
or JSON null leaves the zero value, a JSON string is taken verbatim,
anything else is a decode error. -/
def jsonGetString (fs : List (String × Json)) (k : String) : Except String String :=
  match objGet fs k with
  | none => Except.ok ""
  | some Json.null => Except.ok ""
  | some (Json.str s) => Except.ok s
  | some _ => Except.error "json: cannot unmarshal value into Go string field"

/-- `json.Unmarshal` of the `attributes` field into
`map[string]interface\x7b\x7d`: missing or null leaves a nil map. -/
def unmarshalAttributes (fs : List (String × Json)) :
    Except String (List (String × Json)) :=
  match objGet fs "attributes" with
  | none => Except.ok []
  | some Json.null => Except.ok []
  | some (Json.obj gs) => Except.ok gs
  | some _ => Except.error "json: cannot unmarshal value into Go map field"

/-- `json.Unmarshal` of the `created_at` field into `*time.Time`: missing
or null leaves the nil pointer; a JSON string is handed to the RFC 3339
parser (abstracted as `parseTime`); a JSON number is a decode error,
since `time.Time` only unmarshals from a formatted date string. -/
def unmarshalCreatedAt (parseTime : String → Option Int)
    (fs : List (String × Json)) : Except String (Option Int) :=
  match objGet fs "created_at" with
  | none => Except.ok none
  | some Json.null => Except.ok none
  | some (Json.str s) =>
    match parseTime s with
    | some t => Except.ok (some t)
    | none => Except.error "parsing time"
  | some _ => Except.error "json: cannot unmarshal number into field of type time.Time"

/-- Direct (non-legacy) `json.Unmarshal` into `Customer`; the revision of
the struct that owns `MarshalJSON` has no `unsubscribed` field, so that
component stays at its zero value. -/
def unmarshalCustomer (parseTime : String → Option Int) (j : Json) :
    Except String Customer :=
  match j with
  | Json.obj fs => do
    let attrs ← unmarshalAttributes fs
    let cio ← jsonGetString fs "cio_id"
    let created ← unmarshalCreatedAt parseTime fs
    let email ← jsonGetString fs "email"
    let id ← jsonGetString fs "id"
    Except.ok ⟨attrs, cio, created, email, id, none⟩
  | Json.null => Except.ok ⟨[], "", none, "", "", none⟩
  | _ => Except.error "json: cannot unmarshal value into Customer"

/-- Identifier types; only the first three are valid for merges. -/
abbrev IdentifierType := String

/-- The `id` identifier type. -/
def IdentifierTypeID : IdentifierType := "id"

/-- The `email` identifier type. -/
def IdentifierTypeEmail : IdentifierType := "email"

/-- The `cio_id` identifier type. -/
def IdentifierTypeCioID : IdentifierType := "cio_id"

/-- A (type, value) pair addressing a customer (`Identifier`; the Go
field `Type` is spelled `typ` because `Type` is reserved in Lean). -/
structure Identifier where
  typ : IdentifierType
  value : String

/-- `Identifier.kv`: the one-entry map sent for each side of a merge. -/
def Identifier.kv (id : Identifier) : List (String × Json) :=
  [(id.typ, Json.str id.value)]

/-- `Identifier.validate`, as a Boolean (`true` iff Go returns a nil
error): the type must be `id`, `email` or `cio_id` and the
whitespace-trimmed value must be non-empty. -/
def Identifier.validate (id : Identifier) : Bool :=
  (id.typ == IdentifierTypeID || id.typ == IdentifierTypeEmail ||
      id.typ == IdentifierTypeCioID)
    && goTrimSpace id.value != ""

/-- `CustomerIO.IdentifyCtx`. -/
def identifyCtx (cfg : ClientConfig) (customerID : String) (attributes : Json)
    (net : Net) : Except GoErr Unit × List Call :=
  if customerID = "" then (Except.error (GoErr.param "customerID"), [])
  else
    let r := goRequest "PUT" (cfg.URL ++ "/api/v1/customers/" ++ goPathEscape customerID)
      (some attributes) net
    (Except.map (fun _ => ()) r.1, r.2)

/-- `CustomerIO.TrackCtx`. -/
def trackCtx (cfg : ClientConfig) (customerID eventName : String) (data : Json)
    (net : Net) : Except GoErr Unit × List Call :=
  if customerID = "" then (Except.error (GoErr.param "customerID"), [])
  else if eventName = "" then (Except.error (GoErr.param "eventName"), [])
  else
    let r := goRequest "POST"
      (cfg.URL ++ "/api/v1/customers/" ++ goPathEscape customerID ++ "/events")
      (some (Json.obj [("name", Json.str eventName), ("data", data)])) net
    (Except.map (fun _ => ()) r.1, r.2)

/-- `CustomerIO.TrackAnonymousCtx`: only `eventName` is validated; the
`anonymous_id` key is added to the payload only when `anonymousID` is
non-empty. -/
def trackAnonymousCtx (cfg : ClientConfig) (anonymousID eventName : String)
    (data : Json) (net : Net) : Except GoErr Unit × List Call :=
  if eventName = "" then (Except.error (GoErr.param "eventName"), [])
  else
    let payload := [("name", Json.str eventName), ("data", data)] ++
      (if anonymousID ≠ "" then [("anonymous_id", Json.str anonymousID)] else [])
    let r := goRequest "POST" (cfg.URL ++ "/api/v1/events") (some (Json.obj payload)) net
    (Except.map (fun _ => ()) r.1, r.2)

/-- `CustomerIO.DeleteCtx`. -/
def deleteCtx (cfg : ClientConfig) (customerID : String) (net : Net) :
    Except GoErr Unit × List Call :=
  if customerID = "" then (Except.error (GoErr.param "customerID"), [])
  else
    let r := goRequest "DELETE" (cfg.URL ++ "/api/v1/customers/" ++ goPathEscape customerID)
      none net
    (Except.map (fun _ => ()) r.1, r.2)

/-- Go map insertion; with `objGet`'s last-binding-wins lookup, appending
is exactly overwrite semantics. -/
def mapPut (m : List (String × Json)) (k : String) (v : Json) :
    List (String × Json) :=
  m ++ [(k, v)]

/-- `CustomerIO.AddDeviceCtx`: the caller's `data` entries are merged into
the device object after `id` and `platform`. -/
def addDeviceCtx (cfg : ClientConfig) (customerID deviceID platform : String)
    (data : List (String × Json)) (net : Net) : Except GoErr Unit × List Call :=
  if customerID = "" then (Except.error (GoErr.param "customerID"), [])
  else if deviceID = "" then (Except.error (GoErr.param "deviceID"), [])
  else if platform = "" then (Except.error (GoErr.param "platform"), [])
  else
    let device := data.foldl (fun m kv => mapPut m kv.1 kv.2)
      [("id", Json.str deviceID), ("platform", Json.str platform)]
    let r := goRequest "PUT"
      (cfg.URL ++ "/api/v1/customers/" ++ goPathEscape customerID ++ "/devices")
      (some (Json.obj [("device", Json.obj device)])) net
    (Except.map (fun _ => ()) r.1, r.2)

/-- `CustomerIO.DeleteDeviceCtx`. -/
def deleteDeviceCtx (cfg : ClientConfig) (customerID deviceID : String) (net : Net) :
    Except GoErr Unit × List Call :=
  if customerID = "" then (Except.error (GoErr.param "customerID"), [])
  else if deviceID = "" then (Except.error (GoErr.param "deviceID"), [])
  else
    let r := goRequest "DELETE"
      (cfg.URL ++ "/api/v1/customers/" ++ goPathEscape customerID ++ "/devices/" ++
        goPathEscape deviceID) none net
    (Except.map (fun _ => ()) r.1, r.2)

/-- `CustomerIO.MergeCustomersCtx`: each side is validated in turn; a
failed validation becomes a `ParamError` naming the side. -/
def mergeCustomersCtx (cfg : ClientConfig) (primary secondary : Identifier)
    (net : Net) : Except GoErr Unit × List Call :=
  if !primary.validate then (Except.error (GoErr.param "primary"), [])
  else if !secondary.validate then (Except.error (GoErr.param "secondary"), [])
  else
    let r := goRequest "POST" (cfg.URL ++ "/api/v1/merge_customers")
      (some (Json.obj [("primary", Json.obj primary.kv),
                       ("secondary", Json.obj secondary.kv)])) net
    (Except.map (fun _ => ()) r.1, r.2)

/-- `CustomerIO.AddOrUpdate`: flattens the customer into an attribute map
and `PUT`s it; note the identifier is interpolated into the path without
`url.PathEscape`. -/
def addOrUpdate (cfg : ClientConfig) (id : String) (req : Customer) (net : Net) :
    Except GoErr Unit × List Call :=
  let atts := req.Attributes
  let atts := match req.CreatedAt with
    | some t => mapPut atts "created_at" (Json.num t)
    | none => atts
  let atts := if req.Email ≠ "" then mapPut atts "email" (Json.str req.Email) else atts
  let atts := if req.ID ≠ "" then mapPut atts "id" (Json.str req.ID) else atts
  let atts := match req.Unsubscribed with
    | some b => mapPut atts "unsubscribed" (Json.bool b)
    | none => atts
  let r := goRequest "PUT" (cfg.URL ++ "/api/v1/customers/" ++ id)
    (some (Json.obj atts)) net
  (Except.map (fun _ => ()) r.1, r.2)

/-- The identifier list built by `AddCustomersToSegment`: for each
customer the selected identifier field is appended unconditionally (an
unknown identifier type appends nothing). -/
def segmentIdentifiers (customers : List Customer) (identifier : IdentifierType) :
    List String :=
  customers.foldl (fun acc customer =>
    if identifier = IdentifierTypeID then acc ++ [customer.ID]
    else if identifier = IdentifierTypeEmail then acc ++ [customer.Email]
    else if identifier = IdentifierTypeCioID then acc ++ [customer.CioID]
    else acc) []

/-- `CustomerIO.AddCustomersToSegment`: posts the identifier list and
returns its length together with the request error, if any. -/
def addCustomersToSegment (cfg : ClientConfig) (segmentID : Int)
    (customers : List Customer) (identifier : IdentifierType) (net : Net) :
    (Nat × Except GoErr Unit) × List Call :=
  let identifiers := segmentIdentifiers customers identifier
  let r := goRequest "POST"
    (cfg.URL ++ "/api/v1/segments/" ++ toString segmentID ++
      "/add_customers?id_type=" ++ identifier)
    (some (Json.obj [("ids", Json.arr (identifiers.map Json.str))])) net
  ((identifiers.length, Except.map (fun _ => ()) r.1), r.2)

/-- The string fields of the legacy attribute-search envelope
(`customer.attributes.\x7battributes, cio_id, created_at, email, id\x7d`). -/
structure SearchAttrs where
  attributes : String
  cioID : String
  createdAt : String
  email : String
  id : String

/-- `json.Unmarshal` of the raw body into the `searchResponse` /
`attributesResponse` envelope; missing levels leave zero values. -/
def decodeSearchEnvelope (j : Json) : Except String SearchAttrs :=
  match j with
  | Json.obj fs =>
    match objGet fs "customer" with
    | none => Except.ok ⟨"", "", "", "", ""⟩
    | some Json.null => Except.ok ⟨"", "", "", "", ""⟩
    | some (Json.obj cs) =>
      match objGet cs "attributes" with
      | none => Except.ok ⟨"", "", "", "", ""⟩
      | some Json.null => Except.ok ⟨"", "", "", "", ""⟩
      | some (Json.obj as) => do
        let a ← jsonGetString as "attributes"
        let c ← jsonGetString as "cio_id"
        let t ← jsonGetString as "created_at"
        let e ← jsonGetString as "email"
        let i ← jsonGetString as "id"
        Except.ok ⟨a, c, t, e, i⟩
      | some _ => Except.error "json: cannot unmarshal value into attributes"
    | some _ => Except.error "json: cannot unmarshal value into customer"
  | Json.null => Except.ok ⟨"", "", "", "", ""⟩
  | _ => Except.error "json: cannot unmarshal value into searchResponse"

/-- The legacy double-decode of the string-encoded `attributes` field,
verbatim from the source:
`if js, err := strconv.Unquote(s); err != nil && js != "" \x7b err = json.Unmarshal([]byte(js), &attributes); ... \x7d`.
`goUnquote` returns `(js, errored)`; the second-stage `json.Unmarshal`
parses text and is abstracted as the parameter `um` (`none` = parse
error). -/
def legacyAttributes (um : String → Option (List (String × Json))) (s : String) :
    Except String (List (String × Json)) :=
  let r := goUnquote s
  if r.2 = true ∧ r.1 ≠ "" then
    match um r.1 with
    | some attrs => Except.ok attrs
    | none => Except.error "json: unmarshal error"
  else Except.ok []

/-- URL built by `CustomerSearch` / `GetCustomer`: the identifier goes
into the path verbatim, the id type through `url.Values.Encode`. -/
def searchUrl (id : String) (idType : IdentifierType) : String :=
  "/v1/customers/" ++ id ++ "/attributes?id_type=" ++ goQueryEscape idType

/-- `APIClient.CustomerSearch`: 404 becomes the not-found sentinel, any
other non-200 a `CustomerIOError`; on 200 the envelope is decoded, the
legacy attributes logic is applied and `created_at` is parsed with
`strconv.Atoi` when non-empty. -/
def customerSearch (um : String → Option (List (String × Json))) (id : String)
    (idType : IdentifierType) (net : Net) : Except GoErr Customer × List Call :=
  match doRequest "GET" (searchUrl id idType) none net with
  | (Except.error m, calls) => (Except.error (GoErr.transport m), calls)
  | (Except.ok (statusCode, body), calls) =>
    if statusCode = 404 then (Except.error GoErr.notFound, calls)
    else if statusCode ≠ 200 then
      (Except.error (GoErr.api statusCode (searchUrl id idType) body), calls)
    else
      match decodeSearchEnvelope body with
      | Except.error m => (Except.error (GoErr.jsonError m), calls)
      | Except.ok env =>
        match legacyAttributes um env.attributes with
        | Except.error m => (Except.error (GoErr.jsonError m), calls)
        | Except.ok attrs =>
          if env.createdAt = "" then
            (Except.ok ⟨attrs, env.cioID, none, env.email, env.id, none⟩, calls)
          else
            match goAtoi env.createdAt with
            | none => (Except.error (GoErr.jsonError "strconv.Atoi: parsing"), calls)
            | some n => (Except.ok ⟨attrs, env.cioID, some n, env.email, env.id, none⟩, calls)

/-- `APIClient.GetCustomer`: textually the same logic as
`CustomerSearch` in a later revision of the file. -/
def getCustomer (um : String → Option (List (String × Json))) (id : String)
    (idType : IdentifierType) (net : Net) : Except GoErr Customer × List Call :=
  match doRequest "GET" (searchUrl id idType) none net with
  | (Except.error m, calls) => (Except.error (GoErr.transport m), calls)
  | (Except.ok (statusCode, body), calls) =>
    if statusCode = 404 then (Except.error GoErr.notFound, calls)
    else if statusCode ≠ 200 then
      (Except.error (GoErr.api statusCode (searchUrl id idType) body), calls)
    else
      match decodeSearchEnvelope body with
      | Except.error m => (Except.error (GoErr.jsonError m), calls)
      | Except.ok env =>
        match legacyAttributes um env.attributes with
        | Except.error m => (Except.error (GoErr.jsonError m), calls)
        | Except.ok attrs =>
          if env.createdAt = "" then
            (Except.ok ⟨attrs, env.cioID, none, env.email, env.id, none⟩, calls)
          else
            match goAtoi env.createdAt with
            | none => (Except.error (GoErr.jsonError "strconv.Atoi: parsing"), calls)
            | some n => (Except.ok ⟨attrs, env.cioID, some n, env.email, env.id, none⟩, calls)

/-- URL built by `LookupCustomersByEmail`. -/
def emailSearchUrl (email : String) : String :=
  "/v1/customers?email=" ++ goQueryEscape email

/-- `json.Unmarshal` of the `emailSearchResponse` envelope: a list of
`cio_id` strings. -/
def decodeEmailSearchResponse (j : Json) : Except String (List String) :=
  match j with
  | Json.obj fs =>
    match objGet fs "results" with
    | none => Except.ok []
    | some Json.null => Except.ok []
    | some (Json.arr xs) =>
      xs.mapM (fun x =>
        match x with
        | Json.obj gs => jsonGetString gs "cio_id"
        | Json.null => Except.ok ""
        | _ => Except.error "json: cannot unmarshal value into results element")
    | some _ => Except.error "json: cannot unmarshal value into results"
  | Json.null => Except.ok []
  | _ => Except.error "json: cannot unmarshal value into emailSearchResponse"

/-- `APIClient.LookupCustomersByEmail`: 404 becomes the not-found
sentinel, any other non-200 a `CustomerIOError`. -/
def lookupCustomersByEmail (email : String) (net : Net) :
    Except GoErr (List String) × List Call :=
  match doRequest "GET" (emailSearchUrl email) none net with
  | (Except.error m, calls) => (Except.error (GoErr.transport m), calls)
  | (Except.ok (statusCode, body), calls) =>
    if statusCode = 404 then (Except.error GoErr.notFound, calls)
    else if statusCode ≠ 200 then
      (Except.error (GoErr.api statusCode (emailSearchUrl email) body), calls)
    else
      match decodeEmailSearchResponse body with
      | Except.error m => (Except.error (GoErr.jsonError m), calls)
      | Except.ok cioids => (Except.ok cioids, calls)

/-- Marshalled form of `NewEqAttribute`: an equality attribute
condition. -/
def eqAttribute (field value : String) : Json :=
  Json.obj [("attribute", Json.obj
    [("field", Json.str field), ("operator", Json.str "eq"),
     ("value", Json.str value)])]

/-- Marshalled `customerSearchRequest` of the bulk lookup: an OR-combined
filter of equality conditions, one per input identifier (the `and` arm is
omitted by `omitempty`). -/
def lookupPayload (ids : List String) (idType : IdentifierType) : Json :=
  Json.obj [("filter", Json.obj
    [("or", Json.arr (ids.map (fun id => eqAttribute idType id)))])]

/-- The fixed URL of the bulk lookup. -/
def lookupUrl : String := "/v1/customers?limit=1000"

/-- `json.Unmarshal` of the bulk-search `searchResponse`: a list of
decoded identifier maps (a null element decodes to a nil map). -/
def decodeIdentifiersResponse (j : Json) :
    Except String (List (List (String × Json))) :=
  match j with
  | Json.obj fs =>
    match objGet fs "identifiers" with
    | none => Except.ok []
    | some Json.null => Except.ok []
    | some (Json.arr xs) =>
      xs.mapM (fun x =>
        match x with
        | Json.obj gs => Except.ok gs
        | Json.null => Except.ok []
        | _ => Except.error "json: cannot unmarshal value into identifiers element")
    | some _ => Except.error "json: cannot unmarshal value into identifiers"
  | Json.null => Except.ok []
  | _ => Except.error "json: cannot unmarshal value into searchResponse"

/-- One entry of the bulk-lookup correlation map:
`lookup[fmt.Sprint(result[idType])] = fmt.Sprint(result["cio_id"])`. -/
def lookupEntry (idType : IdentifierType) (r : List (String × Json)) :
    String × String :=
  (fmtOpt (objGet r idType), fmtOpt (objGet r "cio_id"))

/-- The correlation map of the bulk lookup, built by inserting one entry
per result (appending, with last-binding-wins lookup, models Go map
insertion). -/
def buildLookup (idType : IdentifierType) (rs : List (List (String × Json))) :
    List (String × String) :=
  rs.foldl (fun m r => m ++ [lookupEntry idType r]) []

/-- Go `map[string]string` indexing: the latest binding, or the zero
value `""` when the key is absent. -/
def mapGetD (m : List (String × String)) (k : String) : String :=
  ((m.reverse.find? (fun kv => kv.1 == k)).map (fun kv => kv.2)).getD ""

/-- The result-matching key: email identifiers are lowercased before the
correlation lookup. -/
def normalizeId (idType : IdentifierType) (id : String) : String :=
  if idType = IdentifierTypeEmail then goToLower id else id

/-- `APIClient.LookupCustomerioIds`: at most 1000 identifiers; larger
batches fail locally before any request. -/
def lookupCustomerioIds (ids : List String) (idType : IdentifierType) (net : Net) :
    Except GoErr (List String) × List Call :=
  if 1000 < ids.length then
    (Except.error (GoErr.simple "Can only lookup 1k customers at a time"), [])
  else
    match doRequest "POST" lookupUrl (some (lookupPayload ids idType)) net with
    | (Except.error m, calls) => (Except.error (GoErr.transport m), calls)
    | (Except.ok (statusCode, body), calls) =>
      if statusCode ≠ 200 then
        (Except.error (GoErr.api statusCode lookupUrl body), calls)
      else
        match decodeIdentifiersResponse body with
        | Except.error m => (Except.error (GoErr.jsonError m), calls)
        | Except.ok rs =>
          (Except.ok (ids.map (fun id =>
            mapGetD (buildLookup idType rs) (normalizeId idType id))), calls)

/-- `json.Unmarshal` of the `ids` envelope of `FindCustomObjects`. -/
def decodeIdsResponse (j : Json) : Except String (List String) :=
  match j with
  | Json.obj fs =>
    match objGet fs "ids" with
    | none => Except.ok []
    | some Json.null => Except.ok []
    | some (Json.arr xs) =>
      xs.mapM (fun x =>
        match x with
        | Json.str s => Except.ok s
        | Json.null => Except.ok ""
        | _ => Except.error "json: cannot unmarshal value into ids element")
    | some _ => Except.error "json: cannot unmarshal value into ids"
  | Json.null => Except.ok []
  | _ => Except.error "json: cannot unmarshal value into response"

/-- `APIClient.FindCustomObjects`: posts to `/v1/objects`, yet labels a
non-200 failure with the URL `/v1/object_types`, verbatim from the
source. -/
def findCustomObjects (objectTypeID : String) (filter : List (String × Json))
    (net : Net) : Except GoErr (List String) × List Call :=
  match doRequest "POST" "/v1/objects"
      (some (Json.obj [("object_type_id", Json.str objectTypeID),
                       ("filter", Json.obj filter)])) net with
  | (Except.error m, calls) => (Except.error (GoErr.transport m), calls)
  | (Except.ok (statusCode, body), calls) =>
    if statusCode ≠ 200 then
      (Except.error (GoErr.api statusCode "/v1/object_types" body), calls)
    else
      match decodeIdsResponse body with
      | Except.error m => (Except.error (GoErr.jsonError m), calls)
      | Except.ok ids => (Except.ok ids, calls)

/-- `json.Unmarshal` of the `object.attributes` envelope of
`GetCustomObjectAttributes`. -/
def decodeObjectAttributes (j : Json) : Except String (List (String × Json)) :=
  match j with
  | Json.obj fs =>
    match objGet fs "object" with
    | none => Except.ok []
    | some Json.null => Except.ok []
    | some (Json.obj os) =>
      match objGet os "attributes" with
      | none => Except.ok []
      | some Json.null => Except.ok []
      | some (Json.obj as) => Except.ok as
      | some _ => Except.error "json: cannot unmarshal value into attributes"
    | some _ => Except.error "json: cannot unmarshal value into object"
  | Json.null => Except.ok []
  | _ => Except.error "json: cannot unmarshal value into response"

/-- `APIClient.GetCustomObjectAttributes`: both identifiers are
interpolated into the path verbatim; the failure URL is again the
copy-pasted `/v1/object_types`. -/
def getCustomObjectAttributes (objectTypeID objectID : String) (net : Net) :
    Except GoErr (List (String × Json)) × List Call :=
  match doRequest "GET" ("/v1/objects/" ++ objectTypeID ++ "/" ++ objectID ++ "/attributes")
      none net with
  | (Except.error m, calls) => (Except.error (GoErr.transport m), calls)
  | (Except.ok (statusCode, body), calls) =>
    if statusCode ≠ 200 then
      (Except.error (GoErr.api statusCode "/v1/object_types" body), calls)
    else
      match decodeObjectAttributes body with
      | Except.error m => (Except.error (GoErr.jsonError m), calls)
      | Except.ok as => (Except.ok as, calls)

theorem goRequest_calls (m u : String) (b : Option Json) (net : Net) :
    (goRequest m u b net).2 = [⟨m, u, b⟩] := by
  unfold goRequest
  rcases net ⟨m, u, b⟩ with msg | ⟨st, body⟩
  · rfl
  · by_cases h : st = 200 <;> simp [h]

theorem doRequest_calls (m u : String) (b : Option Json) (net : Net) :
    (doRequest m u b net).2 = [⟨m, u, b⟩] := by
  unfold doRequest
  rcases net ⟨m, u, b⟩ with msg | ⟨st, body⟩ <;> rfl

theorem b64decStd_charStd : ∀ n, n < 64 → b64decStd (b64charStd n) = some n := by decide

theorem b64decUrl_charUrl : ∀ n, n < 64 → b64decUrl (b64charUrl n) = some n := by decide

theorem b64charUrl_ne_pad : ∀ n, n < 64 → b64charUrl n ≠ '=' := by decide

theorem b64decode_b64encode (alph : Nat → Char) (dec : Char → Option Nat)
    (hdec : ∀ n, n < 64 → dec (alph n) = some n)
    (hne : ∀ n, n < 64 → alph n ≠ '=') :
    ∀ l : List Nat, (∀ b ∈ l, b < 256) → b64decode dec (b64encode alph l) = some l := by
  have main : ∀ (k : Nat) (l : List Nat), l.length ≤ k → (∀ b ∈ l, b < 256) →
      b64decode dec (b64encode alph l) = some l := by
    intro k
    induction k with
    | zero =>
      intro l hl _
      have : l = [] := List.eq_nil_of_length_eq_zero (Nat.le_zero.mp hl)
      subst this
      rfl
    | succ k ih =>
      intro l hl hb
      rcases l with _ | ⟨a, _ | ⟨b, _ | ⟨c, rest⟩⟩⟩
      · rfl
      · have ha : a < 256 := hb a (by simp)
        have h1 : a / 4 < 64 := by omega
        have h2 : a % 4 * 16 < 64 := by omega
        simp only [b64encode, b64decode, hdec _ h1, hdec _ h2]
        norm_num
        omega
      · have ha : a < 256 := hb a (by simp)
        have hbb : b < 256 := hb b (by simp)
        have h1 : a / 4 < 64 := by omega
        have h2 : a % 4 * 16 + b / 16 < 64 := by omega
        have h3 : b % 16 * 4 < 64 := by omega
        simp only [b64encode, b64decode, hdec _ h1, hdec _ h2, hdec _ h3, hne _ h3]
        norm_num
        omega
      · have ha : a < 256 := hb a (by simp)
        have hbb : b < 256 := hb b (by simp)
        have hc : c < 256 := hb c (by simp)
        have h1 : a / 4 < 64 := by omega
        have h2 : a % 4 * 16 + b / 16 < 64 := by omega
        have h3 : b % 16 * 4 + c / 64 < 64 := by omega
        have h4 : c % 64 < 64 := by omega
        have hrest : b64decode dec (b64encode alph rest) = some rest := by
          apply ih
          · simp at hl
            omega
          · intro x hx
            exact hb x (by simp [hx])
        simp only [b64encode, b64decode, hdec _ h1, hdec _ h2, hdec _ h3, hdec _ h4,
          hne _ h3, hne _ h4, hrest]
        norm_num
        omega
  intro l
  exact main l.length l (Nat.le_refl _)

/-- Claim C3 (amended): the auth provider derives the token by URL-safe
(not standard) base64 encoding of the bytes of `<site_id>:<secret_key>`,
totally and purely, so that URL-safe base64 decoding of the token yields
back exactly `<site_id>:<secret_key>` for every credential pair,
including empty strings. -/
theorem auth_urlsafe_roundtrip (siteID apiKey : List Nat)
    (h1 : ∀ b ∈ siteID, b < 256) (h2 : ∀ b ∈ apiKey, b < 256) :
    b64decode b64decUrl (auth siteID apiKey) = some (siteID ++ [58] ++ apiKey) := by
  apply b64decode_b64encode b64charUrl b64decUrl b64decUrl_charUrl b64charUrl_ne_pad
  intro b hb
  rcases List.mem_append.mp hb with hb' | hb'
  · rcases List.mem_append.mp hb' with hs | hc
    · exact h1 b hs
    · simp at hc
      omega
  · exact h2 b hb'

/-- Claim C3 witness: a concrete credential pair round-trips through the
URL-safe decoder. -/
theorem auth_urlsafe_roundtrip_witness :
    b64decode b64decUrl (auth [115, 105] [107]) = some [115, 105, 58, 107] :=
  auth_urlsafe_roundtrip [115, 105] [107] (by decide) (by decide)

/-- Claim C3 counterexample: with an empty site id and secret key `>>`
(bytes 62 62) the token is the URL-safe `Oj4-`, which differs from the
standard encoding `Oj4+` of the same bytes, and standard base64 decoding
rejects the token outright instead of yielding back `:>>`. -/
theorem auth_not_standard_base64 :
    auth [] [62, 62] = ['O', 'j', '4', '-'] ∧
    auth [] [62, 62] ≠ b64encode b64charStd ([] ++ [58] ++ [62, 62]) ∧
    b64decode b64decStd (auth [] [62, 62]) = none := by
  refine ⟨by decide, by decide, by decide⟩

/-- The escaped-JSON attributes field of the Claim C1 failing input: the
Go string `"\x7b\\"plan\\":\\"pro\\"\x7d"` (a quoted JSON object). -/
def c1AttrsField : String := "\"\x7b\\\"plan\\\":\\\"pro\\\"\x7d\""

/-- The legacy search envelope of the Claim C1 failing input. -/
def c1Envelope : Json :=
  Json.obj [("customer", Json.obj [("attributes", Json.obj
    [("attributes", Json.str c1AttrsField),
     ("cio_id", Json.str "c9"),
     ("created_at", Json.str "1700000000"),
     ("email", Json.str "e@x.com"),
     ("id", Json.str "42")])])]

/-- A second-stage unmarshaller for Claim C1 that would succeed on the
unescaped attributes JSON, to show the code never consults it. -/
def c1Unmarshal : String → Option (List (String × Json)) :=
  fun js =>
    if js = "\x7b\"plan\":\"pro\"\x7d" then some [("plan", Json.str "pro")] else none

/-- Claim C1 (code bug): the unescape step of the legacy double decode
succeeds and yields non-empty JSON that the supplied unmarshaller parses,
yet both `CustomerSearch` and `GetCustomer` return an empty attribute
map, because the source's condition `err != nil && js != ""` on
`strconv.Unquote` can never hold (`Unquote` returns `""` exactly when it
errors); the claim's empty-field half does hold (empty map, no error). -/
theorem legacy_attributes_double_decode_dead :
    goUnquote c1AttrsField = ("\x7b\"plan\":\"pro\"\x7d", false) ∧
    c1Unmarshal "\x7b\"plan\":\"pro\"\x7d" = some [("plan", Json.str "pro")] ∧
    (customerSearch c1Unmarshal "42" IdentifierTypeID
        (fun _ => DoOutcome.resp 200 c1Envelope)).1
      = Except.ok ⟨[], "c9", some 1700000000, "e@x.com", "42", none⟩ ∧
    (getCustomer c1Unmarshal "42" IdentifierTypeID
        (fun _ => DoOutcome.resp 200 c1Envelope)).1
      = Except.ok ⟨[], "c9", some 1700000000, "e@x.com", "42", none⟩ ∧
    legacyAttributes c1Unmarshal "" = Except.ok [] := by
  refine ⟨rfl, rfl, rfl, rfl, rfl⟩

/-- Claim C6 (code bug): `request` faithfully reports the status, the
requested URL and the verbatim body of a non-200 response, but
`FindCustomObjects` posts to `/v1/objects` and labels its API error with
the copy-pasted URL `/v1/object_types`, which is not the URL of the
request that was made. -/
theorem api_error_wrong_url :
    (goRequest "GET" "https://track.customer.io/api/v1/accounts/region" none
        (fun _ => DoOutcome.resp 500 (Json.str "oops"))).1
      = Except.error (GoErr.api 500
          "https://track.customer.io/api/v1/accounts/region" (Json.str "oops")) ∧
    (findCustomObjects "widget" [] (fun _ => DoOutcome.resp 500 (Json.str "oops"))).1
      = Except.error (GoErr.api 500 "/v1/object_types" (Json.str "oops")) ∧
    ((findCustomObjects "widget" [] (fun _ => DoOutcome.resp 500 (Json.str "oops"))).2.map
        Call.url) = ["/v1/objects"] ∧
    ("/v1/object_types" : String) ≠ "/v1/objects" := by
  refine ⟨rfl, rfl, rfl, by decide⟩

/-- Claim C7 (code bug): with three customers of which one lacks the
selected email identifier, `AddCustomersToSegment` still submits all
three values — the empty string included — and reports a count of 3, not
2; nothing skips customers whose identifier field is empty, contrary to
the method's own doc comment. -/
theorem addCustomersToSegment_keeps_empty :
    segmentIdentifiers
        [⟨[], "", none, "a@x.com", "", none⟩, ⟨[], "", none, "", "", none⟩,
         ⟨[], "", none, "b@x.com", "", none⟩] IdentifierTypeEmail
      = ["a@x.com", "", "b@x.com"] ∧
    (addCustomersToSegment ⟨"https://track.customer.io"⟩ 7
        [⟨[], "", none, "a@x.com", "", none⟩, ⟨[], "", none, "", "", none⟩,
         ⟨[], "", none, "b@x.com", "", none⟩] IdentifierTypeEmail
        (fun _ => DoOutcome.resp 200 (Json.obj []))).1.1 = 3 ∧
    ((addCustomersToSegment ⟨"https://track.customer.io"⟩ 7
        [⟨[], "", none, "a@x.com", "", none⟩, ⟨[], "", none, "", "", none⟩,
         ⟨[], "", none, "b@x.com", "", none⟩] IdentifierTypeEmail
        (fun _ => DoOutcome.resp 200 (Json.obj []))).2.map Call.body)
      = [some (Json.obj [("ids",
          Json.arr [Json.str "a@x.com", Json.str "", Json.str "b@x.com"])])] := by
  refine ⟨rfl, rfl, rfl⟩

/-- Claim C8 counterexample: encoding a `Customer` with `CreatedAt`
unset emits no `created_at` member at all — the field is dropped by
`omitempty` — rather than rendering the integer zero the claim
describes. -/
theorem created_at_omitted_when_unset :
    marshalCustomer ⟨[], "", none, "", "", none⟩ = [] ∧
    objGet (marshalCustomer ⟨[], "", none, "", "", none⟩) "created_at" = none ∧
    objGet (marshalCustomer ⟨[], "", none, "", "", none⟩) "created_at"
      ≠ some (Json.num 0) := by
  refine ⟨rfl, rfl, fun h => Option.noConfusion h⟩

/-- Claim C9 counterexample: `AddOrUpdate` interpolates the identifier
`a/b` into the request path verbatim; the percent-escaped form `a%2Fb`
the claim requires never appears. -/
theorem addOrUpdate_unescaped_id :
    ((addOrUpdate ⟨"https://x"⟩ "a/b" ⟨[], "", none, "", "", none⟩
        (fun _ => DoOutcome.resp 200 Json.null)).2.map Call.url)
      = ["https://x/api/v1/customers/a/b"] ∧
    goPathEscape "a/b" = "a%2Fb" ∧
    ("https://x/api/v1/customers/a/b" : String)
      ≠ "https://x/api/v1/customers/" ++ goPathEscape "a/b" := by
  refine ⟨rfl, rfl, by decide⟩

/-- Claim C5: for both customer lookup/search calls an HTTP 404 yields
the distinguished `ErrCustomerNotFound` sentinel, never a generic
`CustomerIOError`, while every other non-200 status yields the generic
`CustomerIOError` with that status, the request URL and the body. -/
theorem lookup_status_classification
    (um : String → Option (List (String × Json))) (id email : String)
    (idT : IdentifierType) (st : Nat) (body : Json) :
    (customerSearch um id idT (fun _ => DoOutcome.resp 404 body)).1
      = Except.error GoErr.notFound ∧
    (lookupCustomersByEmail email (fun _ => DoOutcome.resp 404 body)).1
      = Except.error GoErr.notFound ∧
    (st ≠ 404 → st ≠ 200 →
      (customerSearch um id idT (fun _ => DoOutcome.resp st body)).1
        = Except.error (GoErr.api st (searchUrl id idT) body) ∧
      (lookupCustomersByEmail email (fun _ => DoOutcome.resp st body)).1
        = Except.error (GoErr.api st (emailSearchUrl email) body)) := by
  refine ⟨rfl, rfl, fun h404 h200 => ⟨?_, ?_⟩⟩
  · simp [customerSearch, doRequest, h404, h200]
  · simp [lookupCustomersByEmail, doRequest, h404, h200]

/-- Claim C5 witness: a 404 and a 500 response classified at concrete
inputs. -/
theorem lookup_status_classification_witness :
    (customerSearch (fun _ => none) "42" IdentifierTypeID
        (fun _ => DoOutcome.resp 500 Json.null)).1
      = Except.error (GoErr.api 500 (searchUrl "42" IdentifierTypeID) Json.null) :=
  ((lookup_status_classification (fun _ => none) "42" "e@x.com" IdentifierTypeID
    500 Json.null).2.2 (by decide) (by decide)).1

/-- Claim C10: `TrackAnonymousCtx` validates only the event name — an
empty event name fails locally with `ParamError\x7beventName\x7d` and no
call is issued — while an empty anonymous id is accepted and the
`anonymous_id` key is simply omitted from the single outgoing payload; a
non-empty anonymous id is included under that key. -/
theorem trackAnonymous_spec (cfg : ClientConfig) (anon ev : String) (data : Json)
    (net : Net) :
    (ev = "" → trackAnonymousCtx cfg anon ev data net
      = (Except.error (GoErr.param "eventName"), [])) ∧
    (ev ≠ "" → ∃ b,
      (trackAnonymousCtx cfg anon ev data net).2
        = [⟨"POST", cfg.URL ++ "/api/v1/events", some (Json.obj b)⟩] ∧
      objGet b "name" = some (Json.str ev) ∧
      objGet b "anonymous_id" = (if anon = "" then none else some (Json.str anon))) := by
  constructor
  · intro h
    simp [trackAnonymousCtx, h]
  · intro h
    refine ⟨[("name", Json.str ev), ("data", data)] ++
      (if anon ≠ "" then [("anonymous_id", Json.str anon)] else []), ?_, ?_, ?_⟩
    · simp [trackAnonymousCtx, h, goRequest_calls]
    · by_cases ha : anon = "" <;> simp [objGet, ha, List.find?]
    · by_cases ha : anon = "" <;> simp [objGet, ha, List.find?]

/-- Claim C10 witness: an empty event name is rejected locally with no
network call at a concrete input. -/
theorem trackAnonymous_spec_witness :
    trackAnonymousCtx ⟨"https://track.customer.io"⟩ "a1" "" Json.null
        (fun _ => DoOutcome.resp 200 Json.null)
      = (Except.error (GoErr.param "eventName"), []) :=
  (trackAnonymous_spec ⟨"https://track.customer.io"⟩ "a1" "" Json.null
    (fun _ => DoOutcome.resp 200 Json.null)).1 rfl

theorem validate_iff (id : Identifier) :
    id.validate = true ↔
      ((id.typ = IdentifierTypeID ∨ id.typ = IdentifierTypeEmail ∨
          id.typ = IdentifierTypeCioID) ∧ goTrimSpace id.value ≠ "") := by
  simp [Identifier.validate]
  tauto

/-- Claim C4: every modelled endpoint method with required string
parameters rejects an empty value with a `ParamError` naming that
parameter and issues no network call; in particular `MergeCustomers`
fails locally naming `primary` or `secondary` exactly when that side's
type is outside id/email/cio_id or its trimmed value is blank. -/
theorem param_validation (cfg : ClientConfig) (net : Net) (attributes data : Json)
    (ddata : List (String × Json)) (s : String) (p q : Identifier) :
    identifyCtx cfg "" attributes net = (Except.error (GoErr.param "customerID"), []) ∧
    trackCtx cfg "" s data net = (Except.error (GoErr.param "customerID"), []) ∧
    (s ≠ "" → trackCtx cfg s "" data net = (Except.error (GoErr.param "eventName"), [])) ∧
    trackAnonymousCtx cfg s "" data net = (Except.error (GoErr.param "eventName"), []) ∧
    deleteCtx cfg "" net = (Except.error (GoErr.param "customerID"), []) ∧
    addDeviceCtx cfg "" s s ddata net = (Except.error (GoErr.param "customerID"), []) ∧
    (s ≠ "" → addDeviceCtx cfg s "" s ddata net = (Except.error (GoErr.param "deviceID"), [])) ∧
    (s ≠ "" → addDeviceCtx cfg s s "" ddata net = (Except.error (GoErr.param "platform"), [])) ∧
    deleteDeviceCtx cfg "" s net = (Except.error (GoErr.param "customerID"), []) ∧
    (s ≠ "" → deleteDeviceCtx cfg s "" net = (Except.error (GoErr.param "deviceID"), [])) ∧
    (¬ ((p.typ = IdentifierTypeID ∨ p.typ = IdentifierTypeEmail ∨
          p.typ = IdentifierTypeCioID) ∧ goTrimSpace p.value ≠ "") →
      mergeCustomersCtx cfg p q net = (Except.error (GoErr.param "primary"), [])) ∧
    (((p.typ = IdentifierTypeID ∨ p.typ = IdentifierTypeEmail ∨
          p.typ = IdentifierTypeCioID) ∧ goTrimSpace p.value ≠ "") →
      ¬ ((q.typ = IdentifierTypeID ∨ q.typ = IdentifierTypeEmail ∨
          q.typ = IdentifierTypeCioID) ∧ goTrimSpace q.value ≠ "") →
      mergeCustomersCtx cfg p q net = (Except.error (GoErr.param "secondary"), [])) := by
  refine ⟨rfl, rfl, fun h => ?_, rfl, rfl, rfl, fun h => ?_, fun h => ?_, rfl, fun h => ?_,
    fun hp => ?_, fun hp hq => ?_⟩
  · simp [trackCtx, h]
  · simp [addDeviceCtx, h]
  · simp [addDeviceCtx, h]
  · simp [deleteDeviceCtx, h]
  · have hv : p.validate = false := by
      rw [← Bool.not_eq_true, validate_iff]
      exact hp
    simp [mergeCustomersCtx, hv]
  · have hvp : p.validate = true := (validate_iff p).mpr hp
    have hvq : q.validate = false := by
      rw [← Bool.not_eq_true, validate_iff]
      exact hq
    simp [mergeCustomersCtx, hvp, hvq]

/-- Claim C4 witness: `MergeCustomers` with a primary identifier of type
`name` fails locally naming `primary`, at a concrete input. -/
theorem param_validation_witness :
    mergeCustomersCtx ⟨"https://track.customer.io"⟩ ⟨"name", "bob"⟩ ⟨"id", "1"⟩
        (fun _ => DoOutcome.resp 200 Json.null)
      = (Except.error (GoErr.param "primary"), []) :=
  (param_validation ⟨"https://track.customer.io"⟩
    (fun _ => DoOutcome.resp 200 Json.null) Json.null Json.null [] "x"
    ⟨"name", "bob"⟩ ⟨"id", "1"⟩).2.2.2.2.2.2.2.2.2.2.1 (by decide)

/-- Claim C9 (amended): the track-client methods (`IdentifyCtx`,
`TrackCtx`, `DeleteCtx`, `AddDeviceCtx`, `DeleteDeviceCtx`) percent-escape
the caller-supplied identifiers they place in the URL path, for every
identifier string; `AddOrUpdate`, `CustomerSearch` and
`GetCustomObjectAttributes` interpolate their identifiers into the path
verbatim, without escaping. -/
theorem url_escaping_spec (cfg : ClientConfig)
    (id eventName deviceID platform tid oid : String) (idT : IdentifierType)
    (attributes data : Json) (ddata : List (String × Json)) (req : Customer)
    (um : String → Option (List (String × Json))) (net : Net)
    (hid : id ≠ "") (hev : eventName ≠ "") (hdev : deviceID ≠ "")
    (hp : platform ≠ "") :
    ((identifyCtx cfg id attributes net).2.map Call.url
      = [cfg.URL ++ "/api/v1/customers/" ++ goPathEscape id]) ∧
    ((trackCtx cfg id eventName data net).2.map Call.url
      = [cfg.URL ++ "/api/v1/customers/" ++ goPathEscape id ++ "/events"]) ∧
    ((deleteCtx cfg id net).2.map Call.url
      = [cfg.URL ++ "/api/v1/customers/" ++ goPathEscape id]) ∧
    ((addDeviceCtx cfg id deviceID platform ddata net).2.map Call.url
      = [cfg.URL ++ "/api/v1/customers/" ++ goPathEscape id ++ "/devices"]) ∧
    ((deleteDeviceCtx cfg id deviceID net).2.map Call.url
      = [cfg.URL ++ "/api/v1/customers/" ++ goPathEscape id ++ "/devices/" ++
          goPathEscape deviceID]) ∧
    ((addOrUpdate cfg id req net).2.map Call.url
      = [cfg.URL ++ "/api/v1/customers/" ++ id]) ∧
    ((customerSearch um id idT net).2.map Call.url
      = ["/v1/customers/" ++ id ++ "/attributes?id_type=" ++ goQueryEscape idT]) ∧
    ((getCustomObjectAttributes tid oid net).2.map Call.url
      = ["/v1/objects/" ++ tid ++ "/" ++ oid ++ "/attributes"]) := by
  refine ⟨?_, ?_, ?_, ?_, ?_, ?_, ?_, ?_⟩
  · simp [identifyCtx, hid, goRequest_calls]
  · simp [trackCtx, hid, hev, goRequest_calls]
  · simp [deleteCtx, hid, goRequest_calls]
  · simp [addDeviceCtx, hid, hdev, hp, goRequest_calls]
  · simp [deleteDeviceCtx, hid, hdev, goRequest_calls]
  · simp [addOrUpdate, goRequest_calls]
  · have h := doRequest_calls "GET" (searchUrl id idT) none net
    unfold customerSearch
    rcases hreq : doRequest "GET" (searchUrl id idT) none net with ⟨r, calls⟩
    rw [hreq] at h
    simp only at h
    subst h
    rcases r with m | ⟨st, body⟩
    · rfl
    · dsimp only
      split_ifs
      · rfl
      · rfl
      · split
        · rfl
        · split
          · rfl
          · split_ifs
            · rfl
            · split <;> rfl
  · have h := doRequest_calls "GET" ("/v1/objects/" ++ tid ++ "/" ++ oid ++ "/attributes") none net
    unfold getCustomObjectAttributes
    rcases hreq : doRequest "GET" ("/v1/objects/" ++ tid ++ "/" ++ oid ++ "/attributes")
        none net with ⟨r, calls⟩
    rw [hreq] at h
    simp only at h
    subst h
    rcases r with m | ⟨st, body⟩
    · rfl
    · dsimp only
      split_ifs
      · rfl
      · split <;> rfl

/-- Claim C9 witness: `IdentifyCtx` escapes a concrete identifier
containing a slash. -/
theorem url_escaping_spec_witness :
    ((identifyCtx ⟨"https://x"⟩ "a/b" Json.null
        (fun _ => DoOutcome.resp 200 Json.null)).2.map Call.url)
      = ["https://x" ++ "/api/v1/customers/" ++ goPathEscape "a/b"] :=
  (url_escaping_spec ⟨"https://x"⟩ "a/b" "ev" "d1" "ios" "t" "o" "id"
    Json.null Json.null [] ⟨[], "", none, "", "", none⟩ (fun _ => none)
    (fun _ => DoOutcome.resp 200 Json.null)
    (by decide) (by decide) (by decide) (by decide)).1

/-- Claim C8 (amended): encoding a `Customer` with `CreatedAt` unset and
decoding the result back via the direct (non-legacy) JSON path yields a
`Customer` whose `CreatedAt` is again unset; on encode a `created_at`
member, whenever present, is an integer (non-zero) epoch-seconds value
and never a formatted date string — when `CreatedAt` is unset (or is the
zero time or epoch zero) the member is omitted entirely by `omitempty`
rather than rendered as zero. -/
theorem customer_created_at_encoding (c : Customer)
    (parseTime : String → Option Int) :
    (c.CreatedAt = none →
      ∃ c', unmarshalCustomer parseTime (Json.obj (marshalCustomer c)) = Except.ok c' ∧
        c'.CreatedAt = none) ∧
    (∀ kv ∈ marshalCustomer c, kv.1 = "created_at" →
      ∃ n : Int, kv.2 = Json.num n ∧ n ≠ 0) := by
  constructor
  · intro hc
    simp only [marshalCustomer, hc]
    norm_num
    by_cases hA : c.Attributes.isEmpty <;>
      by_cases hC : c.CioID = "" <;>
        by_cases hE : c.Email = "" <;>
          by_cases hI : c.ID = "" <;>
            (simp [hA, hC, hE, hI, unmarshalCustomer, unmarshalAttributes,
              unmarshalCreatedAt, jsonGetString, objGet, List.find?];
             exact ⟨_, rfl, rfl⟩)
  · intro kv hkv hk
    simp only [marshalCustomer, List.mem_append] at hkv
    rcases hkv with ((((h | h) | h) | h) | h)
    · rcases hcr : c.CreatedAt with _ | ct
      · rw [hcr] at h
        norm_num at h
      · rw [hcr] at h
        by_cases hz : ct = goZeroTimeUnix
        · simp [hz] at h
        · simp only [hz, if_false, reduceIte] at h
          split at h
          · simp only [List.mem_singleton] at h
            subst h
            rename_i hnz
            exact ⟨ct, rfl, by simpa using hnz⟩
          · exact absurd h (List.not_mem_nil kv)
    · split at h
      · exact absurd h (List.not_mem_nil kv)
      · simp only [List.mem_singleton] at h
        subst h
        simp at hk
    · split at h
      · simp only [List.mem_singleton] at h
        subst h
        simp at hk
      · exact absurd h (List.not_mem_nil kv)
    · split at h
      · simp only [List.mem_singleton] at h
        subst h
        simp at hk
      · exact absurd h (List.not_mem_nil kv)
    · split at h
      · simp only [List.mem_singleton] at h
        subst h
        simp at hk
      · exact absurd h (List.not_mem_nil kv)

/-- Claim C8 witness: a concrete customer with attributes but no
creation time round-trips to an unset `CreatedAt`. -/
theorem customer_created_at_encoding_witness :
    Except.map Customer.CreatedAt
        (unmarshalCustomer (fun _ => none)
          (Json.obj (marshalCustomer ⟨[("plan", Json.str "pro")], "c9", none, "e@x.com", "42", none⟩)))
      = Except.ok none := by
  obtain ⟨c', hc, hnone⟩ :=
    (customer_created_at_encoding ⟨[("plan", Json.str "pro")], "c9", none, "e@x.com", "42", none⟩
      (fun _ => none)).1 rfl
  rw [hc]
  simp [Except.map, hnone]

theorem foldl_append_map {α β : Type} (f : α → β) (l : List α) (init : List β) :
    l.foldl (fun m r => m ++ [f r]) init = init ++ l.map f := by
  induction l generalizing init with
  | nil => simp
  | cons x xs ih => simp [ih]

theorem buildLookup_eq (idType : IdentifierType) (rs : List (List (String × Json))) :
    buildLookup idType rs = rs.map (lookupEntry idType) := by
  simpa using foldl_append_map (lookupEntry idType) rs []

theorem mapGetD_buildLookup (idType : IdentifierType)
    (rs : List (List (String × Json))) (k : String) :
    mapGetD (buildLookup idType rs) k
      = ((rs.reverse.find? (fun r => (lookupEntry idType r).1 == k)).map
          (fun r => (lookupEntry idType r).2)).getD "" := by
  rw [buildLookup_eq]
  unfold mapGetD
  rw [← List.map_reverse, List.find?_map, Option.map_map]
  rfl

/-- Claim C2: with at most 1000 identifiers the bulk lookup returns a
list of exactly the input's length and order, where each position holds
the `cio_id` of the (latest) response entry whose identifier value
matches that input — email identifiers being lowercased before the
match — and the empty string when no entry matches; with more than 1000
identifiers it fails locally with the descriptive error and performs no
network call. -/
theorem lookupCustomerioIds_spec (ids : List String) (idType : IdentifierType)
    (net : Net) :
    (1000 < ids.length →
      lookupCustomerioIds ids idType net
        = (Except.error (GoErr.simple "Can only lookup 1k customers at a time"), [])) ∧
    (∀ res calls, lookupCustomerioIds ids idType net = (Except.ok res, calls) →
      ids.length ≤ 1000 ∧
      res.length = ids.length ∧
      ∃ st body rs,
        net ⟨"POST", lookupUrl, some (lookupPayload ids idType)⟩
          = DoOutcome.resp st body ∧
        decodeIdentifiersResponse body = Except.ok rs ∧
        ∀ (i : Nat) (idv : String), ids[i]? = some idv →
          (res[i]? = some (((rs.reverse.find? (fun r =>
              (lookupEntry idType r).1 == normalizeId idType idv)).map
              (fun r => (lookupEntry idType r).2)).getD "") ∧
          ((∀ r ∈ rs, (lookupEntry idType r).1 ≠ normalizeId idType idv) →
            res[i]? = some ""))) := by
  constructor
  · intro h
    unfold lookupCustomerioIds
    rw [if_pos h]
  · intro res calls h
    unfold lookupCustomerioIds at h
    by_cases hlen : 1000 < ids.length
    · rw [if_pos hlen] at h
      exact absurd h (by simp)
    · rw [if_neg hlen] at h
      refine ⟨by omega, ?_⟩
      rcases hnet : net ⟨"POST", lookupUrl, some (lookupPayload ids idType)⟩
        with m | ⟨st, body⟩
      · rw [show doRequest "POST" lookupUrl (some (lookupPayload ids idType)) net
            = (Except.error m, [⟨"POST", lookupUrl, some (lookupPayload ids idType)⟩]) from by
          unfold doRequest; rw [hnet]] at h
        exact absurd h (by simp)
      · rw [show doRequest "POST" lookupUrl (some (lookupPayload ids idType)) net
            = (Except.ok (st, body), [⟨"POST", lookupUrl, some (lookupPayload ids idType)⟩]) from by
          unfold doRequest; rw [hnet]] at h
        dsimp only at h
        by_cases hst : st ≠ 200
        · rw [if_pos hst] at h
          exact absurd h (by simp)
        · rw [if_neg hst] at h
          rcases hdec : decodeIdentifiersResponse body with m | rs
          · rw [hdec] at h
            exact absurd h (by simp)
          · rw [hdec] at h
            dsimp only at h
            have hres : ids.map (fun id =>
                mapGetD (buildLookup idType rs) (normalizeId idType id)) = res := by
              have := congrArg Prod.fst h
              simpa using this
            refine ⟨by rw [← hres]; simp, st, body, rs, rfl, hdec, ?_⟩
            intro i idv hidv
            have hgi : res[i]? = some (mapGetD (buildLookup idType rs)
                (normalizeId idType idv)) := by
              rw [← hres, List.getElem?_map, hidv]
              rfl
            constructor
            · rw [hgi, mapGetD_buildLookup]
            · intro hno
              have hfind : rs.reverse.find? (fun r =>
                  (lookupEntry idType r).1 == normalizeId idType idv) = none := by
                apply List.find?_eq_none.mpr
                intro x hx
                simpa using hno x (List.mem_reverse.mp hx)
              rw [hgi, mapGetD_buildLookup, hfind]
              rfl

/-- Network oracle of the Claim C2 witness: a single matched identifier,
keyed by the lowercased email. -/
def c2Net : Net := fun _ => DoOutcome.resp 200 (Json.obj [("identifiers",
  Json.arr [Json.obj [("email", Json.str "a@x.com"), ("cio_id", Json.str "C1")]])])

/-- Claim C2 witness: two identifiers (one matching only after email
lowercasing, one unmatched) produce a same-length result, and a
1001-element batch fails locally with no call. -/
theorem lookupCustomerioIds_spec_witness :
    (["C1", ""] : List String).length = (["A@x.com", "b"] : List String).length ∧
    lookupCustomerioIds (List.replicate 1001 "x") IdentifierTypeEmail c2Net
      = (Except.error (GoErr.simple "Can only lookup 1k customers at a time"), []) := by
  constructor
  · exact ((lookupCustomerioIds_spec ["A@x.com", "b"] IdentifierTypeEmail c2Net).2
      ["C1", ""]
      [⟨"POST", lookupUrl, some (lookupPayload ["A@x.com", "b"] IdentifierTypeEmail)⟩]
      rfl).2.1
  · exact (lookupCustomerioIds_spec (List.replicate 1001 "x") IdentifierTypeEmail c2Net).1
      (by rw [List.length_replicate]; norm_num)
